import Mathlib

/-!
Verification of the WiVRn hardware video-encode session orchestrator
(`src/server/encoder/video_encoder_vulkan.cpp`) against its natural-language
specification.

Machine integers are modelled as `Nat` with explicit `% 2^32` / `% 2^64`
wherever the C++ arithmetic can wrap; `int32_t` slot indices are modelled as
`Int` (`-1` = unregistered).  Fallible operations return `Except`.
-/

namespace WiVRn

/-- `uint64_t(-1)`: the sentinel occupancy tag of a free / never-used DPB slot. -/
def sentinel64 : Nat := 2 ^ 64 - 1

/-- `align` from video_encoder_vulkan.cpp:25-30, in unsigned 32-bit arithmetic:
`if (alignment == 0) return value; return alignment * (1 + (value - 1) / alignment);`
The subtraction `value - 1` and the multiplication are uint32 operations, so both
are taken mod `2^32`. -/
def align (value alignment : Nat) : Nat :=
  if alignment = 0 then value
  else (alignment * (1 + ((value + (2 ^ 32 - 1)) % 2 ^ 32) / alignment)) % 2 ^ 32

/-- Output bitstream buffer size from video_encoder_vulkan.cpp:163-166:
`output_buffer_size = rect.extent.width * rect.extent.height * 3;`
`output_buffer_size = align(output_buffer_size, video_caps.minBitstreamBufferSizeAlignment);`
(uint32 arithmetic). -/
def output_buffer_size (width height alignment : Nat) : Nat :=
  align (width * height * 3 % 2 ^ 32) alignment

/-- The slice of `vk::VideoEncodeCapabilitiesKHR` the orchestrator consults:
whether the CBR / VBR rate-control mode bits are advertised, and `maxBitrate`
(a uint64). -/
structure EncodeCaps where
  cbr : Bool
  vbr : Bool
  maxBitrate : Nat
deriving DecidableEq, Repr

/-- `patch_capabilities` (video_encoder_vulkan.cpp:32-40): if CBR or VBR is
advertised while `maxBitrate == 0`, the rate-control modes are downgraded to
`eDefault` (no managed mode); only a warning is logged, no error is raised. -/
def patch_capabilities (caps : EncodeCaps) : EncodeCaps :=
  if (caps.cbr || caps.vbr) && caps.maxBitrate == 0 then
    { caps with cbr := false, vbr := false }
  else caps

/-- The fields of `vk::VideoEncodeRateControlLayerInfoKHR` the claims concern
(bitrates in bits per second, uint64).  The frame-rate fraction is computed
from a `float` fps and is not modelled (floating point, unused by any claim). -/
structure RateControlLayer where
  averageBitrate : Nat
  maxBitrate : Nat
deriving DecidableEq, Repr

inductive RateControlMode
  | rcDefault
  | rcCbr
  | rcVbr
deriving DecidableEq, Repr

/-- The fields of `vk::VideoEncodeRateControlInfoKHR` the claims concern. -/
structure RateControlInfo where
  mode : RateControlMode
  virtualBufferSizeInMs : Nat
  initialVirtualBufferSizeInMs : Nat
deriving DecidableEq, Repr

/-- Rate-control negotiation in the `video_encoder_vulkan` constructor
(video_encoder_vulkan.cpp:54-98):
capabilities are first patched; the layer gets
`averageBitrate = min(bitrate, maxBitrate)` and
`maxBitrate = min(2 * bitrate, maxBitrate)` (uint64 arithmetic, so
`2 * bitrate` wraps mod `2^64`); the info struct fixes a 5000 ms virtual
buffer with 4000 ms initial fill; then CBR is preferred (and forces
`layer.maxBitrate = layer.averageBitrate`), else VBR, else `rate_control`
is reset to none. -/
def video_encoder_vulkan_rc (in_caps : EncodeCaps) (bitrate : Nat) :
    RateControlLayer × Option RateControlInfo :=
  let caps := patch_capabilities in_caps
  let layer : RateControlLayer :=
    { averageBitrate := min bitrate caps.maxBitrate
      maxBitrate := min (2 * bitrate % 2 ^ 64) caps.maxBitrate }
  let rc : RateControlInfo :=
    { mode := .rcDefault
      virtualBufferSizeInMs := 5000
      initialVirtualBufferSizeInMs := 4000 }
  if caps.cbr then
    ({ layer with maxBitrate := layer.averageBitrate }, some { rc with mode := .rcCbr })
  else if caps.vbr then
    (layer, some { rc with mode := .rcVbr })
  else
    (layer, none)

/-- Device results the retrieval path inspects. -/
inductive VkResult
  | eSuccess
  | eTimeout
  | eNotReady
  | eErrorDeviceLost
deriving DecidableEq, Repr

/-- An encoded access unit: byte offset and length into the output buffer. -/
structure EncodedData where
  offset : Nat
  size : Nat
deriving DecidableEq, Repr

/-- `video_encoder_vulkan::encode` (video_encoder_vulkan.cpp:323-345), result
handling only: `waitForFences` returning non-success throws
(`"wait for fences: ..."`); a non-success result from
`query_pool.getResults` is merely printed to `std::cerr` and execution
falls through to returning the data built from the query feedback. -/
def encode (wait_res query_res : VkResult) (feedback_offset feedback_size : Nat) :
    Except String EncodedData :=
  if wait_res ≠ VkResult.eSuccess then
    Except.error "wait for fences"
  else
    -- query_res ≠ eSuccess only reaches std::cerr; the call still returns data
    Except.ok { offset := feedback_offset, size := feedback_size }

/-- `video_encoder_vulkan::on_feedback` (video_encoder_vulkan.cpp:479-488),
sequential semantics of the compare-and-retry loop on the atomic `last_ack`:
if `sent_to_decoder`, replace `last_ack` by `frame_index` exactly when
`last_ack < frame_index` (uint64 compare); otherwise leave it unchanged. -/
def on_feedback (last_ack frame_index : Nat) (sent_to_decoder : Bool) : Nat :=
  if sent_to_decoder then
    if last_ack < frame_index then frame_index else last_ack
  else last_ack

/-- Modelled from the spec: the initial value of the Feedback Tracker's
`last_acknowledged_frame_index` ("Initial value = none acknowledged").  The
declaration of `last_ack` lives in the header, which is not part of the
sources; the spec's sentinel is modelled as 0, below every genuine frame
index, so that any delivered acknowledgement supersedes it. -/
def initial_last_ack : Nat := 0

/-- One DPB entry (`dpb_item`): its occupancy tag `frame_index` (uint64,
`sentinel64` meaning free), the device slot index of its
`vk::VideoReferenceSlotInfoKHR` (`-1` = unregistered), and whether
`pPictureResource` is set. -/
structure DpbItem where
  frame_index : Nat
  slotIndex : Int
  hasResource : Bool
deriving DecidableEq, Repr

/-- Placeholder used with `List.getD`; every lookup in the theorems is at an
in-range index. -/
def dummyItem : DpbItem := ⟨0, 0, false⟩

/-- The comparison key of the setup-slot search
(video_encoder_vulkan.cpp:362-366): the comparator is
`a.frame_index + 1 < b.frame_index + 1` in uint64 arithmetic, so the key is
`(frame_index + 1) % 2^64` (the free sentinel wraps to 0). -/
def slotKey (x : DpbItem) : Nat := (x.frame_index + 1) % 2 ^ 64

/-- Index of the first minimal element of a list of keys: the semantics of
`std::ranges::min_element` (which keeps the first element among ties). -/
def idxOfMin : List Nat → Nat
  | [] => 0
  | [_] => 0
  | a :: b :: l =>
    if a ≤ (b :: l).getD (idxOfMin (b :: l)) 0 then 0 else idxOfMin (b :: l) + 1

/-- Encoder state touched by `present_image`: the DPB ring, the submission
counter `frame_num`, and the last acknowledged frame index `last_ack`. -/
structure EncoderState where
  dpb : List DpbItem
  frame_num : Nat
  last_ack : Nat
deriving DecidableEq, Repr

/-- Setup-slot selection (video_encoder_vulkan.cpp:362-367):
`std::ranges::min_element` over the DPB with the `frame_index + 1` key. -/
def setup_slot_index (dpb : List DpbItem) : Nat := idxOfMin (dpb.map slotKey)

/-- `slot->info.slotIndex = -1;` (video_encoder_vulkan.cpp:368) applied to the
chosen setup slot. -/
def set_unreg (dpb : List DpbItem) (j : Nat) : List DpbItem :=
  dpb.set j { dpb.getD j dummyItem with slotIndex := -1 }

/-- The acknowledgement scan (video_encoder_vulkan.cpp:370-379): the first
slot whose `frame_index` equals `last_ack` and whose device slot index is
registered; `i` is the index of the first list element. -/
def find_ack_ref (last_ack : Nat) : List DpbItem → Nat → Option Nat
  | [], _ => none
  | x :: xs, i =>
    if x.frame_index = last_ack ∧ x.slotIndex ≠ -1 then some i
    else find_ack_ref last_ack xs (i + 1)

/-- The guard of the assignment in the fallback loop
(video_encoder_vulkan.cpp:388): `not ref_slot or ref_slot->frame_index <
dpb[i].frame_index`. -/
def fallback_better (ref : Option (Nat × Nat)) (fi : Nat) : Bool :=
  match ref with
  | none => true
  | some r => decide (r.2 < fi)

/-- The fallback loop (video_encoder_vulkan.cpp:381-395), faithfully
including the `break` that directly follows the assignment `ref_slot =
&dpb[i]`: the loop stops at the first registered slot that passes the
guard.  `ref` carries (list index, frame_index) of the current candidate. -/
def fallback_ref (ref : Option (Nat × Nat)) : List DpbItem → Nat → Option (Nat × Nat)
  | [], _ => ref
  | x :: xs, i =>
    if x.slotIndex ≠ -1 then
      if fallback_better ref x.frame_index then some (i, x.frame_index)
      else fallback_ref ref xs (i + 1)
    else fallback_ref ref xs (i + 1)

/-- `slot.info.slotIndex = -1; slot.info.pPictureResource = nullptr;
slot.frame_index = -1;` applied to every slot in the full-reset branch
(video_encoder_vulkan.cpp:400-405). -/
def reset_item (x : DpbItem) : DpbItem :=
  { x with slotIndex := -1, hasResource := false, frame_index := sentinel64 }

/-- The reference-selection phase of `present_image`
(video_encoder_vulkan.cpp:370-395), run on the DPB after the setup slot was
unregistered: first the acknowledgement scan; if it found nothing and
`frame_num < 100`, the fallback loop.  Returns the list position of the
chosen `ref_slot`, if any. -/
def choose_ref (dpb1 : List DpbItem) (last_ack frame_num : Nat) : Option Nat :=
  match find_ack_ref last_ack dpb1 0 with
  | some r => some r
  | none =>
    if frame_num < 100 then (fallback_ref none dpb1 0).map Prod.fst
    else none

/-- The writes to the setup slot after reference selection:
`slot->frame_index = frame_index; slot->info.pPictureResource =
&slot->resource;` (video_encoder_vulkan.cpp:407-408) and, after
`beginVideoCodingKHR`, `slot->info.slotIndex = slot_index;`
(video_encoder_vulkan.cpp:418). -/
def apply_setup (dpb : List DpbItem) (j frame_index : Nat) : List DpbItem :=
  let dpb3 := dpb.set j
    { dpb.getD j dummyItem with frame_index := frame_index, hasResource := true }
  dpb3.set j { dpb3.getD j dummyItem with slotIndex := Int.ofNat j }

/-- Everything `present_image` decides for one submission, besides the final
state: the setup slot position, the position of the chosen prediction
reference in the DPB list (if any), whether the full-reset branch ran, and
the `frame_num` value passed to `encode_info_next`. -/
structure PresentResult where
  state : EncoderState
  setup_index : Nat
  ref_index : Option Nat
  did_reset : Bool
  encode_frame_num : Nat
deriving DecidableEq, Repr

/-- `video_encoder_vulkan::present_image` (video_encoder_vulkan.cpp:347-477),
the reference-management state machine:
1. pick the setup slot by `min_element` on `frame_index + 1` and unregister it;
2. scan for a registered slot holding `last_ack`;
3. else, if `frame_num < 100`, run the fallback loop over registered slots;
4. if still no reference, full reset: `frame_num = 0`, every slot
   unregistered with sentinel occupancy and no picture resource;
5. the setup slot then receives the submitted `frame_index` and its picture
   resource, and (after `beginVideoCodingKHR`) its device slot index;
6. `++frame_num`. -/
def present_image (s : EncoderState) (frame_index : Nat) : PresentResult :=
  let j := setup_slot_index s.dpb
  let dpb1 := set_unreg s.dpb j
  let ref := choose_ref dpb1 s.last_ack s.frame_num
  let did_reset := ref.isNone
  let frame_num1 := if did_reset then 0 else s.frame_num
  let dpb2 := if did_reset then dpb1.map reset_item else dpb1
  { state := { dpb := apply_setup dpb2 j frame_index
               frame_num := frame_num1 + 1
               last_ack := s.last_ack }
    setup_index := j
    ref_index := ref
    did_reset := did_reset
    encode_frame_num := frame_num1 }

/-! ## Helper lemmas -/

theorem getD_set_self {α : Type} (l : List α) (j : Nat) (a d : α) (h : j < l.length) :
    (l.set j a).getD j d = a := by
  rw [List.getD_eq_getElem _ _ (by simpa using h)]
  simp

theorem getD_set_ne {α : Type} (l : List α) (i j : Nat) (a d : α) (h : i ≠ j) :
    (l.set j a).getD i d = l.getD i d := by
  by_cases hi : i < l.length
  · rw [List.getD_eq_getElem _ _ (by simpa using hi), List.getD_eq_getElem _ _ hi,
      List.getElem_set, if_neg (fun he => h he.symm)]
  · rw [List.getD_eq_default _ _ (by simpa using Nat.le_of_not_lt hi),
      List.getD_eq_default _ _ (Nat.le_of_not_lt hi)]

theorem getD_map_of_lt {α β : Type} (f : α → β) (l : List α) (i : Nat)
    (h : i < l.length) (d : α) (d2 : β) :
    (l.map f).getD i d2 = f (l.getD i d) := by
  rw [List.getD_eq_getElem _ _ (by simpa using h), List.getD_eq_getElem _ _ h]
  simp

theorem idxOfMin_lt : ∀ (l : List Nat), l ≠ [] → idxOfMin l < l.length
  | [], h => absurd rfl h
  | [_], _ => Nat.zero_lt_one
  | a :: b :: l, _ => by
    have ih := idxOfMin_lt (b :: l) (by simp)
    simp only [idxOfMin]
    split
    · simp
    · simpa using Nat.succ_lt_succ ih

theorem idxOfMin_le : ∀ (l : List Nat), ∀ i < l.length,
    l.getD (idxOfMin l) 0 ≤ l.getD i 0
  | [], i, hi => by simp at hi
  | [_], i, hi => by
    have h0 : i = 0 := by simp at hi; omega
    subst h0
    simp [idxOfMin]
  | a :: b :: l, i, hi => by
    simp only [idxOfMin]
    split
    · rename_i hle
      match i with
      | 0 => simp
      | i + 1 =>
        have ih := idxOfMin_le (b :: l) i (by simpa using Nat.lt_of_succ_lt_succ hi)
        calc a ≤ (b :: l).getD (idxOfMin (b :: l)) 0 := hle
          _ ≤ (b :: l).getD i 0 := ih
          _ = (a :: b :: l).getD (i + 1) 0 := rfl
    · rename_i hgt
      have hlt := Nat.lt_of_not_le hgt
      match i with
      | 0 => exact Nat.le_of_lt hlt
      | i + 1 =>
        exact idxOfMin_le (b :: l) i (by simpa using Nat.lt_of_succ_lt_succ hi)

theorem idxOfMin_first : ∀ (l : List Nat), ∀ i < l.length,
    l.getD i 0 = l.getD (idxOfMin l) 0 → idxOfMin l ≤ i
  | [], i, hi, _ => by simp at hi
  | [_], i, hi, _ => by
    have h0 : i = 0 := by simp at hi; omega
    subst h0
    simp [idxOfMin]
  | a :: b :: l, i, hi, he => by
    revert he
    simp only [idxOfMin]
    split
    · intro _
      exact Nat.zero_le i
    · rename_i hgt
      have hlt := Nat.lt_of_not_le hgt
      match i with
      | 0 =>
        intro he
        simp only [List.getD_cons_zero, List.getD_cons_succ] at he
        omega
      | i + 1 =>
        intro he
        simp only [List.getD_cons_succ] at he
        have ih := idxOfMin_first (b :: l) i
          (by simpa using Nat.lt_of_succ_lt_succ hi) he
        exact Nat.succ_le_succ ih

theorem find_ack_ref_none_of (la : Nat) : ∀ (l : List DpbItem) (i0 : Nat),
    (∀ t < l.length,
      ¬((l.getD t dummyItem).frame_index = la ∧ (l.getD t dummyItem).slotIndex ≠ -1)) →
    find_ack_ref la l i0 = none
  | [], _, _ => rfl
  | x :: xs, i0, h => by
    simp only [find_ack_ref]
    rw [if_neg (by simpa using h 0 (by simp))]
    exact find_ack_ref_none_of la xs (i0 + 1) fun t ht => h (t + 1) (by simpa using ht)

theorem find_ack_ref_some_spec (la : Nat) : ∀ (l : List DpbItem) (i0 r : Nat),
    find_ack_ref la l i0 = some r →
    ∃ t < l.length, r = i0 + t ∧
      (l.getD t dummyItem).frame_index = la ∧ (l.getD t dummyItem).slotIndex ≠ -1
  | [], _, _, h => by simp [find_ack_ref] at h
  | x :: xs, i0, r, h => by
    revert h
    simp only [find_ack_ref]
    split
    · rename_i hx
      intro h
      exact ⟨0, by simp, by simpa using h.symm, hx⟩
    · intro h
      obtain ⟨t, ht, hr, hp⟩ := find_ack_ref_some_spec la xs (i0 + 1) r h
      exact ⟨t + 1, by simpa using ht, by omega, hp⟩

theorem find_ack_ref_first (la : Nat) : ∀ (l : List DpbItem) (i0 t : Nat),
    t < l.length →
    (l.getD t dummyItem).frame_index = la → (l.getD t dummyItem).slotIndex ≠ -1 →
    (∀ u < t,
      ¬((l.getD u dummyItem).frame_index = la ∧ (l.getD u dummyItem).slotIndex ≠ -1)) →
    find_ack_ref la l i0 = some (i0 + t)
  | [], _, t, ht, _, _, _ => by simp at ht
  | x :: xs, i0, t, ht, hfi, hreg, hfirst => by
    match t with
    | 0 =>
      simp only [find_ack_ref]
      rw [if_pos ⟨hfi, hreg⟩]
      simp
    | t + 1 =>
      simp only [find_ack_ref]
      rw [if_neg (by simpa using hfirst 0 (by simp))]
      have := find_ack_ref_first la xs (i0 + 1) t (by simpa using Nat.lt_of_succ_lt_succ ht)
        hfi hreg (fun u hu => hfirst (u + 1) (by simpa using hu))
      rw [this]
      congr 1
      omega

theorem fallback_ref_of_all_unreg (ref : Option (Nat × Nat)) :
    ∀ (l : List DpbItem) (i0 : Nat),
    (∀ t < l.length, (l.getD t dummyItem).slotIndex = -1) →
    fallback_ref ref l i0 = ref
  | [], _, _ => rfl
  | x :: xs, i0, h => by
    simp only [fallback_ref]
    rw [if_neg (by simpa using h 0 (by simp))]
    exact fallback_ref_of_all_unreg ref xs (i0 + 1) fun t ht => h (t + 1) (by simpa using ht)

theorem fallback_ref_none_some_spec : ∀ (l : List DpbItem) (i0 : Nat) (p : Nat × Nat),
    fallback_ref none l i0 = some p →
    ∃ t < l.length, p.1 = i0 + t ∧ (l.getD t dummyItem).slotIndex ≠ -1
  | [], _, _, h => by simp [fallback_ref] at h
  | x :: xs, i0, p, h => by
    revert h
    simp only [fallback_ref]
    split
    · rename_i hreg
      simp only [fallback_better]
      intro h
      refine ⟨0, by simp, ?_, hreg⟩
      have : p = (i0, x.frame_index) := by simpa using h.symm
      simp [this]
    · intro h
      obtain ⟨t, ht, hr, hp⟩ := fallback_ref_none_some_spec xs (i0 + 1) p h
      exact ⟨t + 1, by simpa using ht, by omega, hp⟩

theorem present_image_setup_index (s : EncoderState) (f : Nat) :
    (present_image s f).setup_index = setup_slot_index s.dpb := rfl

theorem present_image_ref_index (s : EncoderState) (f : Nat) :
    (present_image s f).ref_index =
      choose_ref (set_unreg s.dpb (setup_slot_index s.dpb)) s.last_ack s.frame_num := rfl

theorem present_image_did_reset (s : EncoderState) (f : Nat) :
    (present_image s f).did_reset = (present_image s f).ref_index.isNone := rfl

theorem present_image_encode_frame_num (s : EncoderState) (f : Nat) :
    (present_image s f).encode_frame_num =
      if (present_image s f).ref_index.isNone then 0 else s.frame_num := rfl

theorem present_image_state_frame_num (s : EncoderState) (f : Nat) :
    (present_image s f).state.frame_num = (present_image s f).encode_frame_num + 1 := rfl

theorem present_image_state_dpb (s : EncoderState) (f : Nat) :
    (present_image s f).state.dpb =
      apply_setup
        (if (present_image s f).ref_index.isNone
          then (set_unreg s.dpb (setup_slot_index s.dpb)).map reset_item
          else set_unreg s.dpb (setup_slot_index s.dpb))
        (setup_slot_index s.dpb) f := rfl

theorem reset_item_const (x : DpbItem) : reset_item x = ⟨sentinel64, -1, false⟩ := rfl

theorem choose_ref_of_ack (dpb1 : List DpbItem) (la fn r : Nat)
    (h : find_ack_ref la dpb1 0 = some r) : choose_ref dpb1 la fn = some r := by
  unfold choose_ref
  rw [h]

theorem choose_ref_none_intro (dpb1 : List DpbItem) (la fn : Nat)
    (hack : find_ack_ref la dpb1 0 = none)
    (hfb : 100 ≤ fn ∨ fallback_ref none dpb1 0 = none) :
    choose_ref dpb1 la fn = none := by
  unfold choose_ref
  rw [hack]
  rcases hfb with h | h
  · simp only [if_neg (by omega : ¬fn < 100)]
  · rw [h]
    simp

theorem choose_ref_some_elim (dpb1 : List DpbItem) (la fn r : Nat)
    (h : choose_ref dpb1 la fn = some r) :
    r < dpb1.length ∧ (dpb1.getD r dummyItem).slotIndex ≠ -1 := by
  unfold choose_ref at h
  cases hf : find_ack_ref la dpb1 0 with
  | some r2 =>
    rw [hf] at h
    simp at h
    subst h
    obtain ⟨t, ht, hrt, _, hreg⟩ := find_ack_ref_some_spec la dpb1 0 r2 hf
    have htr : r2 = t := by omega
    subst htr
    exact ⟨ht, hreg⟩
  | none =>
    rw [hf] at h
    simp at h
    obtain ⟨_, v, hp⟩ := h
    obtain ⟨t, ht, hpt, hreg⟩ := fallback_ref_none_some_spec dpb1 0 (r, v) hp
    simp at hpt
    subst hpt
    exact ⟨ht, hreg⟩

theorem setup_slot_index_lt (dpb : List DpbItem) (hne : dpb ≠ []) :
    setup_slot_index dpb < dpb.length := by
  have hmne : dpb.map slotKey ≠ [] := fun hm => hne (by simpa using hm)
  have := idxOfMin_lt (dpb.map slotKey) hmne
  unfold setup_slot_index
  simpa using this

theorem apply_setup_getD_ne (dpb : List DpbItem) (j f i : Nat) (h : i ≠ j) :
    (apply_setup dpb j f).getD i dummyItem = dpb.getD i dummyItem := by
  unfold apply_setup
  rw [getD_set_ne _ _ _ _ _ h, getD_set_ne _ _ _ _ _ h]

theorem apply_setup_getD_self (dpb : List DpbItem) (j f : Nat) (h : j < dpb.length) :
    (apply_setup dpb j f).getD j dummyItem = ⟨f, Int.ofNat j, true⟩ := by
  unfold apply_setup
  rw [getD_set_self _ _ _ _ (by simpa using h), getD_set_self _ _ _ _ h]

/-- Modelled from the spec: the least-recently-used eligibility key of the
setup-slot selection — a never-used/reset slot (sentinel occupancy) is most
eligible (key 0), and otherwise slots are ordered by how recently they were
produced, i.e. by their occupancy tag `frame_index`. -/
def lruKey (x : DpbItem) : Nat :=
  if x.frame_index = sentinel64 then 0 else x.frame_index + 1

theorem slotKey_eq_lruKey (x : DpbItem) (h : x.frame_index < 2 ^ 64) :
    slotKey x = lruKey x := by
  unfold slotKey lruKey
  by_cases hs : x.frame_index = sentinel64
  · rw [hs, if_pos rfl]
    unfold sentinel64
    norm_num
  · rw [if_neg hs]
    exact Nat.mod_eq_of_lt (by unfold sentinel64 at hs; omega)

/-! ## Claim theorems -/

/-- C5: `on_feedback` is monotonic and idempotent: with `was_delivered = false` the
value is unchanged; with `was_delivered = true` it becomes `max(current,
acknowledged_frame_index)`; and issuing `(5, true)`, `(3, true)`, `(5, true)` from the
initial "none acknowledged" state leaves it at 5. -/
theorem C5_on_feedback_monotone_idempotent :
    (∀ a f, on_feedback a f false = a) ∧
    (∀ a f, on_feedback a f true = max a f) ∧
    on_feedback (on_feedback (on_feedback initial_last_ack 5 true) 3 true) 5 true = 5 := by
  refine ⟨fun a f => rfl, fun a f => ?_, by decide⟩
  simp only [on_feedback, if_true]
  rw [Nat.max_def]
  split <;> split <;> omega

/-- C8: a capability report advertising CBR or VBR with `maxBitrate == 0` never fails
construction: the modes are downgraded to the device default and the encoder ends with
no managed rate-control configuration (`rate_control` is reset), with no error
surfaced (the model is a total function with no error channel on this path). -/
theorem C8_inconsistent_caps_downgraded (caps : EncodeCaps) (bitrate : Nat)
    (hadv : caps.cbr = true ∨ caps.vbr = true) (hmax : caps.maxBitrate = 0) :
    (patch_capabilities caps).cbr = false ∧ (patch_capabilities caps).vbr = false ∧
    (video_encoder_vulkan_rc caps bitrate).2 = none := by
  have hp : patch_capabilities caps = { caps with cbr := false, vbr := false } := by
    unfold patch_capabilities
    rw [if_pos]
    rcases hadv with h | h <;> simp [h, hmax]
  refine ⟨by rw [hp], by rw [hp], ?_⟩
  unfold video_encoder_vulkan_rc
  rw [hp]
  simp

theorem C8_witness :
    (patch_capabilities ⟨true, false, 0⟩).cbr = false ∧
    (patch_capabilities ⟨true, false, 0⟩).vbr = false ∧
    (video_encoder_vulkan_rc ⟨true, false, 0⟩ 42).2 = none :=
  C8_inconsistent_caps_downgraded ⟨true, false, 0⟩ 42 (Or.inl rfl) rfl

/-- C7 counterexample: with a successful fence wait but a non-success result from the
query read-back, `encode` still returns the data (`Except.ok`), so the non-success
query result is not propagated to the caller, contrary to the claim. -/
theorem C7_counterexample_query_failure_swallowed :
    encode VkResult.eSuccess VkResult.eErrorDeviceLost 3 7 = Except.ok ⟨3, 7⟩ ∧
    VkResult.eErrorDeviceLost ≠ VkResult.eSuccess :=
  ⟨rfl, by decide⟩

/-- C7 amended: a non-success result from the bounded completion-signal wait is fatal
for the call and propagated (thrown); a non-success result from the query read-back
wait is only logged to stderr, and the call still returns the queried data. -/
theorem C7_wait_failure_fatal_query_failure_logged (w q : VkResult) (o n : Nat) :
    (w ≠ VkResult.eSuccess → encode w q o n = Except.error "wait for fences") ∧
    (w = VkResult.eSuccess → encode w q o n = Except.ok ⟨o, n⟩) := by
  constructor
  · intro h
    simp [encode, h]
  · intro h
    simp [encode, h]

theorem C7_amended_witness :
    encode VkResult.eTimeout VkResult.eSuccess 0 0 = Except.error "wait for fences" ∧
    encode VkResult.eSuccess VkResult.eSuccess 1 2 = Except.ok ⟨1, 2⟩ :=
  ⟨(C7_wait_failure_fatal_query_failure_logged VkResult.eTimeout VkResult.eSuccess 0 0).1
      (by decide),
    (C7_wait_failure_fatal_query_failure_logged VkResult.eSuccess VkResult.eSuccess 1 2).2
      rfl⟩

/-- C6 counterexample: with CBR advertised, `maxBitrate` 40 Mb/s and requested
10 Mb/s, the code sets the peak bitrate equal to the average (10 Mb/s), not to twice
the average clamped to the maximum (which would be 20 Mb/s) as the claim states. -/
theorem C6_counterexample_cbr_peak :
    (video_encoder_vulkan_rc ⟨true, false, 40000000⟩ 10000000).1.maxBitrate = 10000000 ∧
    min (2 * (video_encoder_vulkan_rc ⟨true, false, 40000000⟩ 10000000).1.averageBitrate)
      40000000 = 20000000 := by
  constructor <;> decide

/-- C6 amended: with a nonzero advertised maximum bitrate (and `2 * bitrate` not
overflowing uint64), the negotiated average is `min(requested, maximum)`; the virtual
buffer is fixed at 5000 ms total / 4000 ms initial fill; CBR is preferred, else VBR,
else no managed rate control; the peak is `min(2 * average, maximum)` under VBR, but
under CBR the peak is set equal to the average. -/
theorem C6_rate_control_negotiation (caps : EncodeCaps) (bitrate : Nat)
    (hmax : caps.maxBitrate ≠ 0) (hfit : 2 * bitrate < 2 ^ 64) :
    (video_encoder_vulkan_rc caps bitrate).1.averageBitrate = min bitrate caps.maxBitrate ∧
    (caps.cbr = true →
      (video_encoder_vulkan_rc caps bitrate).2 = some ⟨RateControlMode.rcCbr, 5000, 4000⟩ ∧
      (video_encoder_vulkan_rc caps bitrate).1.maxBitrate = min bitrate caps.maxBitrate) ∧
    (caps.cbr = false → caps.vbr = true →
      (video_encoder_vulkan_rc caps bitrate).2 = some ⟨RateControlMode.rcVbr, 5000, 4000⟩ ∧
      (video_encoder_vulkan_rc caps bitrate).1.maxBitrate =
        min (2 * min bitrate caps.maxBitrate) caps.maxBitrate) ∧
    (caps.cbr = false → caps.vbr = false →
      (video_encoder_vulkan_rc caps bitrate).2 = none) := by
  have hp : patch_capabilities caps = caps := by
    unfold patch_capabilities
    rw [if_neg]
    simp [hmax]
  have hmod : 2 * bitrate % 2 ^ 64 = 2 * bitrate := Nat.mod_eq_of_lt hfit
  have hmod2 : 2 * bitrate % 18446744073709551616 = 2 * bitrate := hmod
  have hminmin : min (2 * bitrate) caps.maxBitrate =
      min (2 * min bitrate caps.maxBitrate) caps.maxBitrate := by
    rcases Nat.le_total bitrate caps.maxBitrate with h | h
    · rw [Nat.min_eq_left h]
    · rw [Nat.min_eq_right h]
      omega
  cases hc : caps.cbr <;> cases hv : caps.vbr <;>
    simp [video_encoder_vulkan_rc, hp, hc, hv, hmod, hmod2, hminmin]

theorem C6_witness :
    (video_encoder_vulkan_rc ⟨false, true, 10000000⟩ 20000000).1.averageBitrate = 10000000 ∧
    (video_encoder_vulkan_rc ⟨false, true, 10000000⟩ 20000000).1.maxBitrate = 10000000 ∧
    (video_encoder_vulkan_rc ⟨false, true, 10000000⟩ 20000000).2 =
      some ⟨RateControlMode.rcVbr, 5000, 4000⟩ := by
  have h := C6_rate_control_negotiation ⟨false, true, 10000000⟩ 20000000 (by decide) (by decide)
  obtain ⟨h1, _, h3, _⟩ := h
  obtain ⟨h3a, h3b⟩ := h3 rfl rfl
  refine ⟨by rw [h1]; decide, by rw [h3b]; decide, h3a⟩

/-- C9: for width, height ≥ 1 and arithmetic that stays exact in unsigned 32 bits,
the output buffer size is at least 3 bytes per pixel (`w * h * 3`) and is the
smallest multiple of the alignment that is ≥ `w * h * 3`, equal to `w * h * 3`
itself when the alignment is 0. -/
theorem C9_output_buffer_size_aligned (w h a : Nat)
    (hw : 1 ≤ w) (hh : 1 ≤ h)
    (hfit : w * h * 3 < 2 ^ 32) (hafit : w * h * 3 + a ≤ 2 ^ 32) :
    w * h * 3 ≤ output_buffer_size w h a ∧
    (a = 0 → output_buffer_size w h a = w * h * 3) ∧
    (a ≠ 0 → a ∣ output_buffer_size w h a ∧
      ∀ m, a ∣ m → w * h * 3 ≤ m → output_buffer_size w h a ≤ m) := by
  have hwh : 1 ≤ w * h := Nat.one_le_iff_ne_zero.mpr (Nat.mul_ne_zero (by omega) (by omega))
  have hv1 : 1 ≤ w * h * 3 := by omega
  have hmod : w * h * 3 % 2 ^ 32 = w * h * 3 := Nat.mod_eq_of_lt hfit
  by_cases ha : a = 0
  · subst ha
    have hout0 : output_buffer_size w h 0 = w * h * 3 := by
      unfold output_buffer_size align
      rw [if_pos rfl]
      exact hmod
    exact ⟨by rw [hout0], fun _ => hout0, fun hcon => absurd rfl hcon⟩
  · have hpos : 0 < a := Nat.pos_of_ne_zero ha
    have hsub : (w * h * 3 + (2 ^ 32 - 1)) % 2 ^ 32 = w * h * 3 - 1 := by
      have h1 : w * h * 3 + (2 ^ 32 - 1) = (w * h * 3 - 1) + 2 ^ 32 := by omega
      rw [h1, Nat.add_mod_right]
      exact Nat.mod_eq_of_lt (by omega)
    have hd : a * ((w * h * 3 - 1) / a) ≤ w * h * 3 - 1 := by
      rw [Nat.mul_comm]
      exact Nat.div_mul_le_self _ _
    have hmul : a * (1 + (w * h * 3 - 1) / a) = a + a * ((w * h * 3 - 1) / a) := by ring
    have hout : output_buffer_size w h a = a * (1 + (w * h * 3 - 1) / a) := by
      unfold output_buffer_size align
      rw [if_neg ha, hmod, hsub]
      exact Nat.mod_eq_of_lt (by omega)
    have hdm := Nat.div_add_mod (w * h * 3 - 1) a
    have hml : (w * h * 3 - 1) % a < a := Nat.mod_lt _ hpos
    refine ⟨by rw [hout]; omega, fun h0 => absurd h0 ha,
      fun _ => ⟨⟨1 + (w * h * 3 - 1) / a, hout⟩, ?_⟩⟩
    intro m hdvd hm
    obtain ⟨k, hk⟩ := hdvd
    rw [hout, hk]
    have hkq : 1 + (w * h * 3 - 1) / a ≤ k := by
      by_contra hcon
      push_neg at hcon
      have hka : a * k ≤ a * ((w * h * 3 - 1) / a) :=
        Nat.mul_le_mul (Nat.le_refl a) (by omega)
      omega
    exact Nat.mul_le_mul (Nat.le_refl a) hkq

/-- C2: for every submission and DPB state (well-formed uint64 occupancy tags),
the setup slot chosen by minimizing `frame_index + 1` is exactly the
least-recently-used slot: its LRU key (never-used sentinel most eligible, then
by occupancy tag) is minimal over the ring, and among equally eligible slots
the lowest index is chosen. -/
theorem C2_setup_slot_is_lru (s : EncoderState) (f : Nat)
    (hne : s.dpb ≠ [])
    (hwf : ∀ x ∈ s.dpb, x.frame_index < 2 ^ 64) :
    (present_image s f).setup_index < s.dpb.length ∧
    (∀ i < s.dpb.length,
      lruKey (s.dpb.getD (present_image s f).setup_index dummyItem) ≤
        lruKey (s.dpb.getD i dummyItem)) ∧
    ∀ i < s.dpb.length,
      lruKey (s.dpb.getD i dummyItem) =
        lruKey (s.dpb.getD (present_image s f).setup_index dummyItem) →
      (present_image s f).setup_index ≤ i := by
  simp only [present_image_setup_index, setup_slot_index]
  have hmne : s.dpb.map slotKey ≠ [] := fun hm => hne (by simpa using hm)
  have hlen : (s.dpb.map slotKey).length = s.dpb.length := by simp
  have hj0 : idxOfMin (s.dpb.map slotKey) < s.dpb.length := by
    have := idxOfMin_lt _ hmne
    omega
  have htrans : ∀ i, i < s.dpb.length →
      (s.dpb.map slotKey).getD i 0 = lruKey (s.dpb.getD i dummyItem) := by
    intro i hi
    rw [getD_map_of_lt slotKey s.dpb i hi dummyItem 0]
    have hmem : s.dpb.getD i dummyItem ∈ s.dpb := by
      rw [List.getD_eq_getElem _ _ hi]
      exact List.getElem_mem hi
    exact slotKey_eq_lruKey _ (hwf _ hmem)
  refine ⟨hj0, ?_, ?_⟩
  · intro i hi
    have h1 := idxOfMin_le (s.dpb.map slotKey) i (by omega)
    rw [htrans _ hj0, htrans _ hi] at h1
    exact h1
  · intro i hi he
    refine idxOfMin_first (s.dpb.map slotKey) i (by omega) ?_
    rw [htrans _ hj0, htrans _ hi]
    exact he

theorem C2_witness :
    (present_image ⟨[⟨5, 0, true⟩, ⟨sentinel64, -1, false⟩], 3, 5⟩ 6).setup_index <
      ([⟨5, 0, true⟩, ⟨sentinel64, -1, false⟩] : List DpbItem).length ∧
    (∀ i < ([⟨5, 0, true⟩, ⟨sentinel64, -1, false⟩] : List DpbItem).length,
      lruKey (([⟨5, 0, true⟩, ⟨sentinel64, -1, false⟩] : List DpbItem).getD
        (present_image ⟨[⟨5, 0, true⟩, ⟨sentinel64, -1, false⟩], 3, 5⟩ 6).setup_index
        dummyItem) ≤
        lruKey (([⟨5, 0, true⟩, ⟨sentinel64, -1, false⟩] : List DpbItem).getD i dummyItem)) ∧
    ∀ i < ([⟨5, 0, true⟩, ⟨sentinel64, -1, false⟩] : List DpbItem).length,
      lruKey (([⟨5, 0, true⟩, ⟨sentinel64, -1, false⟩] : List DpbItem).getD i dummyItem) =
        lruKey (([⟨5, 0, true⟩, ⟨sentinel64, -1, false⟩] : List DpbItem).getD
          (present_image ⟨[⟨5, 0, true⟩, ⟨sentinel64, -1, false⟩], 3, 5⟩ 6).setup_index
          dummyItem) →
      (present_image ⟨[⟨5, 0, true⟩, ⟨sentinel64, -1, false⟩], 3, 5⟩ 6).setup_index ≤ i :=
  C2_setup_slot_is_lru ⟨[⟨5, 0, true⟩, ⟨sentinel64, -1, false⟩], 3, 5⟩ 6
    (by simp) (by decide)

/-- C10: a chosen prediction reference is never the setup slot of the same
submission: the setup slot's device slot index is set to unregistered before
reference selection runs, and both the acknowledgement path and the fallback
path only consider slots whose device slot index is registered. -/
theorem C10_ref_not_setup (s : EncoderState) (f r : Nat)
    (hne : s.dpb ≠ [])
    (h : (present_image s f).ref_index = some r) :
    r ≠ (present_image s f).setup_index ∧
    ((set_unreg s.dpb (setup_slot_index s.dpb)).getD r dummyItem).slotIndex ≠ -1 := by
  rw [present_image_ref_index] at h
  rw [present_image_setup_index]
  have hj : setup_slot_index s.dpb < s.dpb.length := by
    have hmne : s.dpb.map slotKey ≠ [] := fun hm => hne (by simpa using hm)
    have := idxOfMin_lt (s.dpb.map slotKey) hmne
    unfold setup_slot_index
    simpa using this
  have hreg := (choose_ref_some_elim _ _ _ _ h).2
  refine ⟨?_, hreg⟩
  intro he
  apply hreg
  rw [he]
  unfold set_unreg
  rw [getD_set_self _ _ _ _ hj]

theorem C10_witness :
    (0 : Nat) ≠ (present_image ⟨[⟨5, 0, true⟩, ⟨sentinel64, -1, false⟩], 3, 5⟩ 6).setup_index ∧
    ((set_unreg [⟨5, 0, true⟩, ⟨sentinel64, -1, false⟩]
      (setup_slot_index [⟨5, 0, true⟩, ⟨sentinel64, -1, false⟩])).getD 0
      dummyItem).slotIndex ≠ -1 :=
  C10_ref_not_setup ⟨[⟨5, 0, true⟩, ⟨sentinel64, -1, false⟩], 3, 5⟩ 6 0
    (by simp) (by decide)

/-- C1: evaluation at the failing input.  On the 3rd submission with no
acknowledgements ever received (reachable: frames 1 and 2 were encoded into
slots 0 and 1, `frame_num = 2 < 100`, `last_ack` still 0), the sub-100
fallback chooses list position 0 — the lowest-index registered slot, holding
frame 1 — although the registered slot at position 1 holds the numerically
greater frame index 2; no full reset occurs.  The claim (and the dead
comparison in the loop, made unreachable by the `break` that directly follows
`ref_slot = &dpb[i]`) says the most recently produced registered reference,
position 1, must be chosen. -/
theorem C1_fallback_picks_first_registered_not_most_recent :
    (present_image ⟨[⟨1, 0, true⟩, ⟨2, 1, true⟩, ⟨sentinel64, -1, false⟩], 2, 0⟩ 3).ref_index
      = some 0 ∧
    (present_image ⟨[⟨1, 0, true⟩, ⟨2, 1, true⟩, ⟨sentinel64, -1, false⟩], 2, 0⟩ 3).did_reset
      = false ∧
    ((set_unreg [⟨1, 0, true⟩, ⟨2, 1, true⟩, ⟨sentinel64, -1, false⟩]
        (setup_slot_index [⟨1, 0, true⟩, ⟨2, 1, true⟩, ⟨sentinel64, -1, false⟩])).getD 1
        dummyItem).slotIndex ≠ -1 ∧
    ((set_unreg [⟨1, 0, true⟩, ⟨2, 1, true⟩, ⟨sentinel64, -1, false⟩]
        (setup_slot_index [⟨1, 0, true⟩, ⟨2, 1, true⟩, ⟨sentinel64, -1, false⟩])).getD 0
        dummyItem).frame_index <
      ((set_unreg [⟨1, 0, true⟩, ⟨2, 1, true⟩, ⟨sentinel64, -1, false⟩]
        (setup_slot_index [⟨1, 0, true⟩, ⟨2, 1, true⟩, ⟨sentinel64, -1, false⟩])).getD 1
        dummyItem).frame_index := by
  refine ⟨?_, ?_, ?_, ?_⟩ <;> decide

theorem C9_witness :
    16 * 16 * 3 ≤ output_buffer_size 16 16 256 ∧
    ((256 : Nat) ≠ 0 → 256 ∣ output_buffer_size 16 16 256 ∧
      ∀ m, 256 ∣ m → 16 * 16 * 3 ≤ m → output_buffer_size 16 16 256 ≤ m) := by
  have h := C9_output_buffer_size_aligned 16 16 256 (by decide) (by decide)
    (by decide) (by decide)
  exact ⟨h.1, h.2.2⟩

/-- C4: when no registered slot besides the just-unregistered setup slot holds the
last acknowledged frame, and either `frame_num ≥ 100` or no registered reference
remains, the submission performs a full reset: the frame is encoded with no
prediction reference and with submission counter 0 (the value passed to
`encode_info_next`; the post-state counter is `0 + 1` after the per-submission
increment), every ReferenceSlot other than the setup slot ends unregistered with
the free sentinel occupancy and no picture resource, and the setup slot then
receives the submitted frame with its device slot index re-registered. -/
theorem C4_full_reset (s : EncoderState) (f : Nat)
    (hne : s.dpb ≠ [])
    (hnoack : ∀ i, i < s.dpb.length → i ≠ setup_slot_index s.dpb →
      (s.dpb.getD i dummyItem).slotIndex ≠ -1 →
      (s.dpb.getD i dummyItem).frame_index ≠ s.last_ack)
    (hnofb : 100 ≤ s.frame_num ∨
      ∀ i, i < s.dpb.length → i ≠ setup_slot_index s.dpb →
        (s.dpb.getD i dummyItem).slotIndex = -1) :
    (present_image s f).did_reset = true ∧
    (present_image s f).ref_index = none ∧
    (present_image s f).encode_frame_num = 0 ∧
    (present_image s f).state.frame_num = 0 + 1 ∧
    (∀ i, i < s.dpb.length → i ≠ setup_slot_index s.dpb →
      (present_image s f).state.dpb.getD i dummyItem = ⟨sentinel64, -1, false⟩) ∧
    (present_image s f).state.dpb.getD (setup_slot_index s.dpb) dummyItem =
      ⟨f, Int.ofNat (setup_slot_index s.dpb), true⟩ := by
  have hsl : setup_slot_index s.dpb < s.dpb.length := setup_slot_index_lt _ hne
  have hd1len : (set_unreg s.dpb (setup_slot_index s.dpb)).length = s.dpb.length := by
    simp [set_unreg]
  have hack : find_ack_ref s.last_ack (set_unreg s.dpb (setup_slot_index s.dpb)) 0 = none := by
    apply find_ack_ref_none_of
    intro t ht
    rw [hd1len] at ht
    by_cases hts : t = setup_slot_index s.dpb
    · subst hts
      unfold set_unreg
      rw [getD_set_self _ _ _ _ hsl]
      rintro ⟨_, hreg⟩
      exact hreg rfl
    · unfold set_unreg
      rw [getD_set_ne _ _ _ _ _ hts]
      rintro ⟨hfi, hreg⟩
      exact hnoack t ht hts hreg hfi
  have hfbn : 100 ≤ s.frame_num ∨
      fallback_ref none (set_unreg s.dpb (setup_slot_index s.dpb)) 0 = none := by
    rcases hnofb with h | h
    · exact Or.inl h
    · refine Or.inr (fallback_ref_of_all_unreg none _ 0 ?_)
      intro t ht
      rw [hd1len] at ht
      by_cases hts : t = setup_slot_index s.dpb
      · subst hts
        unfold set_unreg
        rw [getD_set_self _ _ _ _ hsl]
      · unfold set_unreg
        rw [getD_set_ne _ _ _ _ _ hts]
        exact h t ht hts
  have hcr : choose_ref (set_unreg s.dpb (setup_slot_index s.dpb)) s.last_ack s.frame_num =
      none := choose_ref_none_intro _ _ _ hack hfbn
  have hrefi : (present_image s f).ref_index = none := by
    rw [present_image_ref_index]
    exact hcr
  have hreset : (present_image s f).did_reset = true := by
    rw [present_image_did_reset, hrefi]
    rfl
  have hefn : (present_image s f).encode_frame_num = 0 := by
    rw [present_image_encode_frame_num, hrefi]
    rfl
  have hstate : (present_image s f).state.dpb =
      apply_setup ((set_unreg s.dpb (setup_slot_index s.dpb)).map reset_item)
        (setup_slot_index s.dpb) f := by
    rw [present_image_state_dpb, hrefi]
    rfl
  refine ⟨hreset, hrefi, hefn, ?_, ?_, ?_⟩
  · rw [present_image_state_frame_num, hefn]
  · intro i hi hij
    rw [hstate, apply_setup_getD_ne _ _ _ _ hij,
      getD_map_of_lt reset_item _ i (by omega) dummyItem dummyItem, reset_item_const]
  · rw [hstate, apply_setup_getD_self]
    simpa [set_unreg] using hsl

theorem C4_witness :
    (present_image ⟨[⟨7, 0, true⟩, ⟨8, 1, true⟩], 100, 3⟩ 9).did_reset = true ∧
    (present_image ⟨[⟨7, 0, true⟩, ⟨8, 1, true⟩], 100, 3⟩ 9).ref_index = none ∧
    (present_image ⟨[⟨7, 0, true⟩, ⟨8, 1, true⟩], 100, 3⟩ 9).encode_frame_num = 0 ∧
    (present_image ⟨[⟨7, 0, true⟩, ⟨8, 1, true⟩], 100, 3⟩ 9).state.frame_num = 0 + 1 ∧
    (∀ i, i < ([⟨7, 0, true⟩, ⟨8, 1, true⟩] : List DpbItem).length →
      i ≠ setup_slot_index [⟨7, 0, true⟩, ⟨8, 1, true⟩] →
      (present_image ⟨[⟨7, 0, true⟩, ⟨8, 1, true⟩], 100, 3⟩ 9).state.dpb.getD i dummyItem =
        ⟨sentinel64, -1, false⟩) ∧
    (present_image ⟨[⟨7, 0, true⟩, ⟨8, 1, true⟩], 100, 3⟩ 9).state.dpb.getD
      (setup_slot_index [⟨7, 0, true⟩, ⟨8, 1, true⟩]) dummyItem =
      ⟨9, Int.ofNat (setup_slot_index [⟨7, 0, true⟩, ⟨8, 1, true⟩]), true⟩ :=
  C4_full_reset ⟨[⟨7, 0, true⟩, ⟨8, 1, true⟩], 100, 3⟩ 9
    (by simp) (by decide) (Or.inl (by decide))

/-- C3: if the last acknowledgement is for frame F (a genuine frame index) and a
registered ReferenceSlot j still holds frame F, then — under the program's
reachable-state invariants at the submission of frame F+1: at least two slots,
every registered slot holding a frame index ≤ F, no other registered slot
holding F, and unregistered slots holding the free sentinel — the submission
selects exactly slot j as the prediction reference. -/
theorem C3_ack_selects_holding_slot (s : EncoderState) (F j : Nat)
    (hlen : 2 ≤ s.dpb.length)
    (hack : s.last_ack = F)
    (hF : F + 1 < 2 ^ 64)
    (hj : j < s.dpb.length)
    (hjF : (s.dpb.getD j dummyItem).frame_index = F)
    (hjreg : (s.dpb.getD j dummyItem).slotIndex ≠ -1)
    (hmax : ∀ i, i < s.dpb.length → (s.dpb.getD i dummyItem).slotIndex ≠ -1 →
      (s.dpb.getD i dummyItem).frame_index ≤ F)
    (hdist : ∀ i, i < s.dpb.length → i ≠ j → (s.dpb.getD i dummyItem).slotIndex ≠ -1 →
      (s.dpb.getD i dummyItem).frame_index ≠ F)
    (hunreg : ∀ i, i < s.dpb.length → (s.dpb.getD i dummyItem).slotIndex = -1 →
      (s.dpb.getD i dummyItem).frame_index = sentinel64) :
    (present_image s (F + 1)).ref_index = some j := by
  have hne : s.dpb ≠ [] := by
    intro h0
    rw [h0] at hlen
    simp at hlen
  have hsl : setup_slot_index s.dpb < s.dpb.length := setup_slot_index_lt _ hne
  have hkeyj : slotKey (s.dpb.getD j dummyItem) = F + 1 := by
    unfold slotKey
    rw [hjF]
    exact Nat.mod_eq_of_lt hF
  have hkey_lt : ∀ i, i < s.dpb.length → i ≠ j →
      slotKey (s.dpb.getD i dummyItem) < F + 1 := by
    intro i hi hij
    by_cases hr : (s.dpb.getD i dummyItem).slotIndex = -1
    · have hs := hunreg i hi hr
      unfold slotKey
      rw [hs]
      have h0 : (sentinel64 + 1) % 2 ^ 64 = 0 := by
        unfold sentinel64
        norm_num
      rw [h0]
      omega
    · have h1 := hmax i hi hr
      have h2 := hdist i hi hij hr
      unfold slotKey
      rw [Nat.mod_eq_of_lt (by omega)]
      omega
  have hsetup_ne : setup_slot_index s.dpb ≠ j := by
    intro he
    have hex : ∃ i0, i0 < s.dpb.length ∧ i0 ≠ j ∧
        slotKey (s.dpb.getD i0 dummyItem) < F + 1 := by
      by_cases hj0 : j = 0
      · exact ⟨1, by omega, by omega, hkey_lt 1 (by omega) (by omega)⟩
      · exact ⟨0, by omega, fun h0 => hj0 h0.symm,
          hkey_lt 0 (by omega) fun h0 => hj0 h0.symm⟩
    obtain ⟨i0, hi0, hi0j, hi0k⟩ := hex
    have hle := idxOfMin_le (s.dpb.map slotKey) i0 (by simpa using hi0)
    unfold setup_slot_index at he
    rw [he] at hle
    rw [getD_map_of_lt slotKey _ i0 hi0 dummyItem 0,
      getD_map_of_lt slotKey _ j hj dummyItem 0] at hle
    rw [hkeyj] at hle
    omega
  have hd1j : (set_unreg s.dpb (setup_slot_index s.dpb)).getD j dummyItem =
      s.dpb.getD j dummyItem := by
    unfold set_unreg
    exact getD_set_ne _ _ _ _ _ fun h0 => hsetup_ne h0.symm
  have hfound : find_ack_ref s.last_ack (set_unreg s.dpb (setup_slot_index s.dpb)) 0 =
      some (0 + j) := by
    apply find_ack_ref_first
    · simpa [set_unreg] using hj
    · rw [hd1j, hjF, hack]
    · rw [hd1j]
      exact hjreg
    · intro u hu
      rintro ⟨hufi, hureg⟩
      by_cases hus : u = setup_slot_index s.dpb
      · subst hus
        unfold set_unreg at hureg
        rw [getD_set_self _ _ _ _ hsl] at hureg
        exact hureg rfl
      · unfold set_unreg at hufi hureg
        rw [getD_set_ne _ _ _ _ _ hus] at hufi
        rw [getD_set_ne _ _ _ _ _ hus] at hureg
        have hF2 : (s.dpb.getD u dummyItem).frame_index = F := by
          rw [hufi, hack]
        exact hdist u (by omega) (by omega) hureg hF2
  rw [present_image_ref_index]
  have hcr := choose_ref_of_ack (set_unreg s.dpb (setup_slot_index s.dpb))
    s.last_ack s.frame_num (0 + j) hfound
  simpa using hcr

theorem C3_witness :
    (present_image ⟨[⟨5, 0, true⟩, ⟨sentinel64, -1, false⟩], 3, 5⟩ (5 + 1)).ref_index =
      some 0 :=
  C3_ack_selects_holding_slot ⟨[⟨5, 0, true⟩, ⟨sentinel64, -1, false⟩], 3, 5⟩ 5 0
    (by decide) rfl (by decide) (by decide) rfl (by decide) (by decide) (by decide)
    (by decide)

end WiVRn
